import Mathlib

/-!
Verification development for the proxy-manager core of the Shotcut video
editor (src/proxymanager.cpp).  The C++ code is shallowly embedded: pure
fragments become Lean functions, the streaming XML rewrite becomes a step
function folded over a list of parse events, and the side-effecting
generation entry points become functions that return an explicit trace of
filesystem/job-queue actions.  Machine integers are modelled as Int/Nat
(no overflow is relevant at the sizes involved), QString operations are
modelled on Lean String, and the one floating-point constant
(kProxyResolutionRatio = 1.3f) is modelled as the rational 13/10 with
qRound of a nonnegative value x modelled as floor(x + 1/2).
-/

/-- Filename suffix for a ready video proxy (proxymanager.cpp line 34). -/
def kProxyVideoExtension : String := ".mp4"

/-- Filename suffix for a pending video proxy (line 35). -/
def kProxyPendingVideoExtension : String := ".pending.mp4"

/-- Filename suffix for a ready image proxy (line 36). -/
def kProxyImageExtension : String := ".jpg"

/-- Filename suffix for a pending image proxy (line 37). -/
def kProxyPendingImageExtension : String := ".pending.jpg"

/-- Fallback target resolution (line 39). -/
def kFallbackProxyResolution : Nat := 540

/-- Modelled from the spec: the proxy marker key.  The header
shotcut_mlt_properties.h is not part of src/; the spec only requires this
key to be a fixed name distinct from the ordinary MLT property names
(resource, warp_resource, mlt_service, warp_speed). -/
def kIsProxyProperty : String := "shotcut:proxy"

/-- Modelled from the spec: the original-resource stash key (header not in
src/); a fixed name distinct from the ordinary MLT property names. -/
def kOriginalResourceProperty : String := "shotcut:originalResource"

/-- Modelled from the spec: the proxy-disabled marker key (header not in src/). -/
def kDisableProxyProperty : String := "shotcut:disableProxy"

/-- Modelled from the spec: the generated-sequence marker key (header not in src/). -/
def kShotcutSequenceProperty : String := "shotcut:sequence"

/-- Scan modes accepted by generateVideoProxy (enum in proxymanager.h,
used at lines 103-107). -/
inductive ScanMode where
  | Progressive
  | InterlacedTopFieldFirst
  | InterlacedBottomFieldFirst
  | Automatic
deriving DecidableEq, Repr

/-- ProxyManager::resolution (lines 482-485): the configured preview scale,
or the fallback constant when the setting is zero/unset. -/
def resolution (previewScale : Nat) : Nat :=
  if previewScale ≠ 0 then previewScale else kFallbackProxyResolution

/-- qRound(kProxyResolutionRatio * resolution()) at lines 443 and 451, with
the float constant 1.3f modelled as the exact rational 13/10 and qRound of
a nonnegative value modelled as floor(x + 1/2). -/
def proxyThreshold (previewScale : Nat) : Nat :=
  (13 * resolution previewScale + 5) / 10

/-- A buffered name/value pair (typedef MltProperty, line 236). -/
abbrev MltProperty := String × String

/-- Accumulator of the first loop of processProperties (lines 240-257). -/
structure ScanResult where
  isProxy : Bool
  newResource : String
  service : String
  speed : String
deriving DecidableEq, Repr

/-- One iteration of the first loop of processProperties (lines 245-257). -/
def scanStep (r : ScanResult) (p : MltProperty) : ScanResult :=
  if p.1 = kIsProxyProperty then { r with isProxy := true }
  else if p.1 = kOriginalResourceProperty then { r with newResource := p.2 }
  else if r.newResource = "" ∧ p.1 = "resource" then { r with newResource := p.2 }
  else if p.1 = "mlt_service" then { r with service := p.2 }
  else if p.1 = "warp_speed" then { r with speed := p.2 }
  else r

/-- The first loop of processProperties: detect the proxy marker, capture
the original (or literal) resource, the service and the warp speed
(speed defaults to "1", line 244). -/
def scanProperties (props : List MltProperty) : ScanResult :=
  props.foldl scanStep ⟨false, "", "", "1"⟩

/-- QString::startsWith modelled on the character list of the string. -/
def strStartsWith (s pre : String) : Bool := pre.data.isPrefixOf s.data

/-- QString::endsWith modelled on the character list of the string. -/
def strEndsWith (s suf : String) : Bool := suf.data.isSuffixOf s.data

/-- QString::mid(n) modelled on the character list of the string. -/
def strDrop (s : String) (n : Nat) : String := ⟨s.data.drop n⟩

/-- QString::size modelled as the character count. -/
def strLength (s : String) : Nat := s.data.length

/-- The relativization step of processProperties (lines 265-271): strip a
nonempty root prefix from the path, plus the separating slash when the
root does not itself end in one. -/
def relativize (root nr : String) : String :=
  if root ≠ "" ∧ strStartsWith nr root then
    if strEndsWith root "/" then strDrop nr (strLength root)
    else strDrop nr (strLength root + 1)
  else nr

/-- The second loop of processProperties (lines 262-283), run only for
proxy-marked scopes.  The second String argument threads the mutable
newResource variable: it is relativized in place when a resource property
is reached, so properties emitted earlier see the unrelativized value. -/
def rewriteProps (root service speed : String) : List MltProperty → String → List MltProperty
  | [], _ => []
  | p :: rest, nr =>
    if p.1 = "resource" then
      let nr' := relativize root nr
      (p.1, if service = "timewarp" then speed ++ ":" ++ nr' else nr')
        :: rewriteProps root service speed rest nr'
    else if p.1 = "warp_resource" then
      (p.1, nr) :: rewriteProps root service speed rest nr
    else if p.1 ≠ kIsProxyProperty ∧ p.1 ≠ kOriginalResourceProperty then
      p :: rewriteProps root service speed rest nr
    else
      rewriteProps root service speed rest nr

/-- processProperties (lines 238-295) restricted to its pure part: the
final property sequence that gets written out for one buffered scope. -/
def processProperties (root : String) (props : List MltProperty) : List MltProperty :=
  let s := scanProperties props
  if s.isProxy then rewriteProps root s.service s.speed props s.newResource
  else props

example : processProperties "/a/"
    [(kIsProxyProperty, "1"), (kOriginalResourceProperty, "/a/b/c.mov"),
     ("resource", "/p/h.mp4"), ("mlt_service", "avformat")] =
    [("resource", "b/c.mov"), ("mlt_service", "avformat")] := by decide

example : processProperties "/a"
    [(kIsProxyProperty, "1"), ("mlt_service", "timewarp"), ("warp_speed", "2"),
     (kOriginalResourceProperty, "/a/b.mov"), ("warp_resource", "w"), ("resource", "r")] =
    [("mlt_service", "timewarp"), ("warp_speed", "2"),
     ("warp_resource", "/a/b.mov"), ("resource", "2:b.mov")] := by decide

/-- Parse events delivered by QXmlStreamReader to the loop of filterXML
(lines 311-364).  A property start element together with the text
readElementText consumes (including its end element) is delivered as one
`property` event; every other token kind maps to one constructor. -/
inductive XmlEvent where
  | characters (s : String)
  | comment (s : String)
  | dtd (s : String)
  | entityRef (name : String)
  | procInst (target data : String)
  | startDocument (version : String) (standalone : Bool)
  | endDocument
  | property (name value : String)
  | startElement (ns name : String) (attrs : List (String × String))
  | endElement (name : String)
deriving DecidableEq, Repr

/-- Calls made on the output QXmlStreamWriter, one constructor per write
(a rewritten property element is one `property` write: start element,
name attribute, characters, end element, lines 287-292). -/
inductive XmlWrite where
  | characters (s : String)
  | comment (s : String)
  | dtd (s : String)
  | entityRef (name : String)
  | procInst (target data : String)
  | startDocument (version : String) (standalone : Bool)
  | endDocument
  | property (name value : String)
  | startElement (ns name : String) (attrs : List (String × String))
  | endElement (name : String)
deriving DecidableEq, Repr

/-- The property-element writes of one flushed buffer (lines 286-292). -/
def propertyWrites (ps : List MltProperty) : List XmlWrite :=
  ps.map fun p => XmlWrite.property p.1 p.2

/-- The loop state of filterXML: the isPropertyElement flag, the buffered
properties, and the writes made so far. -/
structure FilterState where
  isPropertyElement : Bool
  properties : List MltProperty
  output : List XmlWrite
deriving Repr

/-- One iteration of the read loop of filterXML (lines 311-364).  Note
that an end element does not clear the isPropertyElement flag. -/
def filterStep (root : String) (st : FilterState) (e : XmlEvent) : FilterState :=
  match e with
  | .characters s =>
      if st.isPropertyElement then st
      else { st with output := st.output ++ [.characters s] }
  | .comment s => { st with output := st.output ++ [.comment s] }
  | .dtd s => { st with output := st.output ++ [.dtd s] }
  | .entityRef n => { st with output := st.output ++ [.entityRef n] }
  | .procInst t d => { st with output := st.output ++ [.procInst t d] }
  | .startDocument v sa => { st with output := st.output ++ [.startDocument v sa] }
  | .endDocument => { st with output := st.output ++ [.endDocument] }
  | .property n v =>
      { st with isPropertyElement := true, properties := st.properties ++ [(n, v)] }
  | .startElement ns n attrs =>
      { isPropertyElement := false, properties := [],
        output := st.output ++ propertyWrites (processProperties root st.properties)
          ++ [.startElement ns n attrs] }
  | .endElement n =>
      if n = "property" then st
      else
        { st with
          properties := [],
          output := st.output ++ propertyWrites (processProperties root st.properties)
            ++ [.endElement n] }

/-- The writes the loop of filterXML produces for a whole event stream. -/
def filterEvents (root : String) (events : List XmlEvent) : List XmlWrite :=
  (events.foldl (filterStep root) ⟨false, [], []⟩).output

/-- The identity rendering of an event stream: every construct written
back where it stands. -/
def passthroughWrites (events : List XmlEvent) : List XmlWrite :=
  events.map fun e => match e with
    | .characters s => .characters s
    | .comment s => .comment s
    | .dtd s => .dtd s
    | .entityRef n => .entityRef n
    | .procInst t d => .procInst t d
    | .startDocument v sa => .startDocument v sa
    | .endDocument => .endDocument
    | .property n v => .property n v
    | .startElement ns n attrs => .startElement ns n attrs
    | .endElement n => .endElement n

/-- Streams on which the rewrite of filterXML is a strict passthrough:
no proxy marker property, no character data while the property flag is
set, no unbuffered construct (comment, DTD, entity reference, processing
instruction, document boundary) while properties are buffered, no
end element literally named property, and a finally flushed buffer. -/
def cleanEvents : Bool → List MltProperty → List XmlEvent → Bool
  | _, buf, [] => buf.isEmpty
  | flag, buf, e :: rest =>
    match e with
    | .characters _ => !flag && cleanEvents flag buf rest
    | .comment _ => buf.isEmpty && cleanEvents flag buf rest
    | .dtd _ => buf.isEmpty && cleanEvents flag buf rest
    | .entityRef _ => buf.isEmpty && cleanEvents flag buf rest
    | .procInst _ _ => buf.isEmpty && cleanEvents flag buf rest
    | .startDocument _ _ => buf.isEmpty && cleanEvents flag buf rest
    | .endDocument => buf.isEmpty && cleanEvents flag buf rest
    | .property n v => (n != kIsProxyProperty) && cleanEvents true (buf ++ [(n, v)]) rest
    | .startElement _ _ _ => cleanEvents false [] rest
    | .endElement n => (n != "property") && cleanEvents flag [] rest

/-- Inputs of ProxyManager::filterXML other than the file name and root:
whether the input and temporary files opened (line 301), the parse events,
whether the reader ended in error (line 373), and the name QTemporaryFile
chose (line 300). -/
structure FilterXMLInput where
  openInputOk : Bool
  openTempOk : Bool
  events : List XmlEvent
  hasError : Bool
  tempName : String

/-- Outcome of ProxyManager::filterXML: the boolean result, the value of
the in/out fileName argument after the call, whether the temporary file
was retained (setAutoRemove(false), line 376), and the writes made. -/
structure FilterResult where
  ok : Bool
  fileNameAfter : String
  tempRetained : Bool
  written : List XmlWrite
deriving Repr

/-- ProxyManager::filterXML (lines 297-381). -/
def filterXML (fileName root : String) (inp : FilterXMLInput) : FilterResult :=
  if inp.openInputOk && inp.openTempOk then
    let written := filterEvents root inp.events
    if !inp.hasError then ⟨true, inp.tempName, true, written⟩
    else ⟨false, fileName, false, written⟩
  else ⟨false, fileName, false, []⟩

/-- A producer (clip) as consumed by the proxy manager: the property and
metadata reads the code performs, plus the externally computed identity
hash (Util::getHash) and full-range flag (MLT.fullRange). -/
structure Producer where
  valid : Bool
  service : String
  resourceProp : String
  warpResource : String
  isProxy : Bool
  disableProxy : Bool
  originalResource : Option String
  isSequence : Bool
  width : Int
  height : Int
  colorspace : Int
  videoIndex : Int
  audioIndex : Int
  hash : String
  fullRange : Bool
deriving DecidableEq, Repr

/-- isValidImage (lines 41-45). -/
def isValidImage (p : Producer) : Bool :=
  (p.service == "qimage" || p.service == "pixbuf") && !p.isSequence

/-- ProxyManager::resource (lines 64-73). -/
def resource (p : Producer) : String :=
  if p.isProxy && p.originalResource.isSome then p.originalResource.getD ""
  else if p.service == "timewarp" then p.warpResource
  else p.resourceProp

/-- The deinterlace stage of the video filter expression (lines 103-107). -/
def deinterlaceFilter (m : ScanMode) : String :=
  if m = ScanMode.Automatic then "yadif=deint=interlaced,"
  else if m ≠ ScanMode.Progressive then
    "yadif=parity=" ++ (if m = ScanMode.InterlacedTopFieldFirst then "tff" else "bff") ++ ","
  else ""

/-- The scale stage of the video filter expression (line 108). -/
def scaleFilter (res : Nat) : String :=
  "scale=width=-2:height=" ++ Nat.repr res

/-- The range suffix appended to the filter expression (lines 112-117). -/
def rangeSuffix (fullRange : Bool) : String :=
  if fullRange then ":in_range=full:out_range=full" else ":in_range=mpeg:out_range=mpeg"

/-- The hardware upload stage appended to the filter expression
(lines 109-111). -/
def hwUploadSuffix (useHardware : Bool) (hwCodecs : List String) : String :=
  if useHardware && (hwCodecs.contains "hevc_vaapi" || hwCodecs.contains "h264_vaapi") then
    ",format=nv12,hwupload"
  else ""

/-- The single -vf argument string of generateVideoProxy. -/
def vfFilterArg (m : ScanMode) (fullRange useHardware : Bool) (hwCodecs : List String)
    (res : Nat) : String :=
  deinterlaceFilter m ++ scaleFilter res ++ rangeSuffix fullRange
    ++ hwUploadSuffix useHardware hwCodecs

/-- The colorspace triplet arguments of generateVideoProxy, selected by
the switch on meta.media.colorspace (lines 119-151). -/
def colorspaceArgs (colorspace height : Int) : List String :=
  if colorspace = 601 then
    if height = 576 then
      ["-color_primaries", "bt470bg", "-color_trc", "smpte170m", "-colorspace", "bt470bg"]
    else
      ["-color_primaries", "smpte170m", "-color_trc", "smpte170m", "-colorspace", "smpte170m"]
  else if colorspace = 170 then
    ["-color_primaries", "smpte170m", "-color_trc", "smpte170m", "-colorspace", "smpte170m"]
  else if colorspace = 240 then
    ["-color_primaries", "smpte240m", "-color_trc", "smpte240m", "-colorspace", "smpte240m"]
  else if colorspace = 470 then
    ["-color_primaries", "bt470bg", "-color_trc", "bt470bg", "-colorspace", "bt470bg"]
  else
    ["-color_primaries", "bt709", "-color_trc", "bt709", "-colorspace", "bt709"]

/-- The hardware encoder priority cascade (lines 157-183). -/
def hwEncoderArgs (hwCodecs : List String) : List String :=
  if hwCodecs.contains "hevc_nvenc" then
    ["-codec:v", "hevc_nvenc", "-rc", "constqp", "-vglobal_quality", "37"]
  else if hwCodecs.contains "hevc_qsv" then
    ["-load_plugin", "hevc_hw", "-codec:v", "hevc_qsv", "-global_quality:v", "36",
     "-look_ahead", "1"]
  else if hwCodecs.contains "hevc_amf" then
    ["-codec:v", "hevc_amf", "-rc", "1", "-qp_i", "32", "-qp_p", "32"]
  else if hwCodecs.contains "hevc_vaapi" then
    ["-init_hw_device", "vaapi=vaapi0:,connection_type=x11", "-filter_hw_device", "vaapi0",
     "-codec:v", "hevc_vaapi", "-qp", "37"]
  else if hwCodecs.contains "h264_vaapi" then
    ["-init_hw_device", "vaapi=vaapi0:,connection_type=x11", "-filter_hw_device", "vaapi0",
     "-codec:v", "h264_vaapi", "-qp", "30"]
  else if hwCodecs.contains "hevc_videotoolbox" then
    ["-codec:v", "hevc_videotoolbox", "-b:v", "2M"]
  else []

/-- The arguments of generateVideoProxy before the colorspace switch
(lines 92-118). -/
def videoProxyPre (res0 : String) (videoIndex audioIndex : Int) (m : ScanMode)
    (fullRange useHardware : Bool) (hwCodecs : List String) (res : Nat) : List String :=
  ["-loglevel", "verbose", "-i", res0, "-max_muxing_queue_size", "9999"]
    ++ (if videoIndex < audioIndex then ["-map", "0:v?", "-map", "0:a?"]
        else ["-map", "0:a?", "-map", "0:v?"])
    ++ ["-map_metadata", "0", "-ignore_unknown", "-vf",
        vfFilterArg m fullRange useHardware hwCodecs res,
        "-color_range", if fullRange then "jpeg" else "mpeg"]

/-- The arguments of generateVideoProxy after the colorspace switch and
before the software fallback check (lines 152-183). -/
def videoProxyMid (aspectX aspectY : Int) (useHardware : Bool)
    (hwCodecs : List String) : List String :=
  (if aspectX = 0 ∧ aspectY = 0 then []
   else ["-aspect", Int.repr aspectX ++ ":" ++ Int.repr aspectY])
    ++ ["-f", "mp4", "-codec:a", "ac3", "-b:a", "256k", "-pix_fmt", "yuv420p"]
    ++ (if useHardware then hwEncoderArgs hwCodecs else [])

/-- The argument list built before the args.contains("-codec:v") check
at line 184. -/
def videoProxyBase (res0 : String) (videoIndex audioIndex : Int) (m : ScanMode)
    (fullRange : Bool) (colorspace height aspectX aspectY : Int) (useHardware : Bool)
    (hwCodecs : List String) (res : Nat) : List String :=
  videoProxyPre res0 videoIndex audioIndex m fullRange useHardware hwCodecs res
    ++ colorspaceArgs colorspace height
    ++ videoProxyMid aspectX aspectY useHardware hwCodecs

/-- The complete ffmpeg argument list of generateVideoProxy
(lines 92-190). -/
def videoProxyArgs (res0 fileName : String) (videoIndex audioIndex : Int) (m : ScanMode)
    (fullRange : Bool) (colorspace height aspectX aspectY : Int) (useHardware : Bool)
    (hwCodecs : List String) (res : Nat) : List String :=
  (if (videoProxyBase res0 videoIndex audioIndex m fullRange colorspace height
        aspectX aspectY useHardware hwCodecs res).contains "-codec:v" then
    videoProxyBase res0 videoIndex audioIndex m fullRange colorspace height
      aspectX aspectY useHardware hwCodecs res
   else
    videoProxyBase res0 videoIndex audioIndex m fullRange colorspace height
      aspectX aspectY useHardware hwCodecs res
      ++ ["-codec:v", "libx264", "-preset", "veryfast", "-crf", "23"])
    ++ ["-g", "1", "-bf", "0", "-y", fileName]

/-- The melt argument list of generateImageProxy (lines 217-224); the
double expression qRound(width / height * resolution()) is modelled as
the exact rational rounded to nearest (half away from zero is irrelevant
for the claims considered). -/
def imageProxyArgs (res0 fileName : String) (width height : Int) (res : Nat) : List String :=
  ["-verbose", "-profile", "square_pal", res0, "out=0", "-consumer",
   "avformat:" ++ fileName,
   "width=" ++ Int.repr ((2 * width * (res : Int) + height) / (2 * height)),
   "height=" ++ Nat.repr res,
   "pix_fmt=yuvj422p", "color_range=full"]

/-- Externally visible side effects of the generation entry points:
touching a file on disk and handing a job to the job queue (JOBS.add). -/
inductive ProxyAction where
  | touchFile (path : String)
  | submitJob (outputPath : String) (args : List String)
deriving DecidableEq, Repr

/-- ProxyManager::generateVideoProxy (lines 75-200) as the ordered trace
of its externally visible side effects.  dirPath stands for the
ProxyManager::dir() result (settings-dependent, external); the pending
output path is dir().filePath(hash + kProxyPendingVideoExtension). -/
def generateVideoProxyTrace (dirPath : String) (p : Producer) (fullRange : Bool)
    (m : ScanMode) (aspectX aspectY : Int) (useHardware : Bool) (hwCodecs : List String)
    (res : Nat) : List ProxyAction :=
  let fileName := dirPath ++ "/" ++ p.hash ++ kProxyPendingVideoExtension
  [ProxyAction.touchFile fileName,
   ProxyAction.submitJob fileName
     (videoProxyArgs (resource p) fileName p.videoIndex p.audioIndex m fullRange
       p.colorspace p.height aspectX aspectY useHardware hwCodecs res)]

/-- ProxyManager::generateImageProxy (lines 202-234) as the ordered trace
of its externally visible side effects. -/
def generateImageProxyTrace (dirPath : String) (p : Producer) (res : Nat) :
    List ProxyAction :=
  let fileName := dirPath ++ "/" ++ p.hash ++ kProxyPendingImageExtension
  [ProxyAction.touchFile fileName,
   ProxyAction.submitJob fileName
     (imageProxyArgs (resource p) fileName p.width p.height res)]

/-- The external environment consumed by the cache locator and
generateIfNotExists: settings, the two cache directories and filesystem
probes against them.  projectProxiesCd models whether
QDir(projectFolder).cd("proxies") succeeds; projectProxiesHas probes
for a file inside that subfolder; projectDirHas probes for a file
directly inside the project folder (the directory the code actually
consults at line 433); globalDirHas probes the global proxy folder.
dirPath stands for the ProxyManager::dir() result. -/
structure Env where
  proxyEnabled : Bool
  previewScale : Nat
  proxyFolder : String
  projectFolder : String
  projectProxiesCd : Bool
  projectProxiesHas : String → Bool
  projectDirHas : String → Bool
  globalDirHas : String → Bool
  dirPath : String
  useHardware : Bool
  hwCodecs : List String

/-- The two-directory probe shared by fileExists and filePending
(lines 396 and 412): project proxies subfolder first, then the global
proxy folder. -/
def probeBothDirs (env : Env) (fileName : String) : Bool :=
  (env.projectProxiesCd && env.projectProxiesHas fileName) || env.globalDirHas fileName

/-- ProxyManager::fileExists (lines 383-397). -/
def fileExists (env : Env) (p : Producer) : Bool :=
  if strStartsWith p.service "avformat" then
    probeBothDirs env (p.hash ++ kProxyVideoExtension)
  else if isValidImage p then
    probeBothDirs env (p.hash ++ kProxyImageExtension)
  else false

/-- ProxyManager::filePending (lines 399-413). -/
def filePending (env : Env) (p : Producer) : Bool :=
  if strStartsWith p.service "avformat" then
    probeBothDirs env (p.hash ++ kProxyPendingVideoExtension)
  else if isValidImage p then
    probeBothDirs env (p.hash ++ kProxyPendingImageExtension)
  else false

/-- The promotion block of generateIfNotExists (lines 431-437): tag the
producer, stash the original resource, and rewrite the resource.  Note
that line 433 consults projectDir.exists(fileName) on the project folder
itself (the QDir constructed at line 422 is never moved into the
proxies subfolder before this check). -/
def promoteToProxy (env : Env) (p : Producer) (fileName : String) :
    Producer × Bool × List ProxyAction :=
  ({ p with
      isProxy := true,
      originalResource := some p.resourceProp,
      resourceProp :=
        if env.projectDirHas fileName then env.projectFolder ++ "/" ++ fileName
        else env.proxyFolder ++ "/" ++ fileName },
   true, [])

/-- ProxyManager::generateIfNotExists (lines 416-460), returning the
updated producer, the boolean result, and the trace of side effects. -/
def generateIfNotExists (env : Env) (p : Producer) (_replace : Bool) :
    Producer × Bool × List ProxyAction :=
  if env.proxyEnabled && p.valid && !p.disableProxy && !p.isProxy then
    if fileExists env p then
      if strStartsWith p.service "avformat" then
        promoteToProxy env p (p.hash ++ kProxyVideoExtension)
      else if isValidImage p then
        promoteToProxy env p (p.hash ++ kProxyImageExtension)
      else (p, false, [])
    else if !filePending env p then
      if strStartsWith p.service "avformat" then
        if p.width > (proxyThreshold env.previewScale : Int)
            ∧ p.height > (proxyThreshold env.previewScale : Int) then
          (p, false, generateVideoProxyTrace env.dirPath p p.fullRange ScanMode.Automatic
            0 0 env.useHardware env.hwCodecs (resolution env.previewScale))
        else (p, false, [])
      else if isValidImage p then
        if p.width > (proxyThreshold env.previewScale : Int)
            ∧ p.height > (proxyThreshold env.previewScale : Int) then
          (p, false, generateImageProxyTrace env.dirPath p (resolution env.previewScale))
        else (p, false, [])
      else (p, false, [])
    else (p, false, [])
  else (p, false, [])

/-- ProxyManager::videoFilenameExtension (lines 462-465). -/
def videoFilenameExtension : String := kProxyVideoExtension

/-- ProxyManager::pendingVideoExtension (lines 467-470). -/
def pendingVideoExtension : String := kProxyPendingVideoExtension

/-- ProxyManager::imageFilenameExtension (lines 472-475). -/
def imageFilenameExtension : String := kProxyImageExtension

/-- ProxyManager::pendingImageExtension (lines 477-480); the source
returns kProxyImageExtension here. -/
def pendingImageExtension : String := kProxyImageExtension

/-- Whether pat occurs as a contiguous run inside s. -/
def containsRun (pat : List Char) : List Char → Bool
  | [] => pat.isEmpty
  | a :: t => pat.isPrefixOf (a :: t) || containsRun pat t

/-- Whether pat occurs as a contiguous substring of s. -/
def strContainsSub (s pat : String) : Bool := containsRun pat.data s.data

theorem data_append (s t : String) : (s ++ t).data = s.data ++ t.data := by
  cases s; cases t; rfl

theorem mem_of_isPrefixOf {pat s : List Char} {c : Char}
    (h : pat.isPrefixOf s = true) (hc : c ∈ pat) : c ∈ s := by
  induction pat generalizing s with
  | nil => simp at hc
  | cons a p ih =>
    cases s with
    | nil => simp [List.isPrefixOf] at h
    | cons b t =>
      simp only [List.isPrefixOf, Bool.and_eq_true, beq_iff_eq] at h
      rcases List.mem_cons.mp hc with rfl | hmem
      · exact h.1 ▸ List.mem_cons_self _ _
      · exact List.mem_cons_of_mem _ (ih h.2 hmem)

theorem containsRun_eq_false {s pat : List Char} {c : Char}
    (hc : c ∈ pat) (hs : c ∉ s) : containsRun pat s = false := by
  induction s with
  | nil =>
    cases pat with
    | nil => simp at hc
    | cons a p => simp [containsRun, List.isEmpty]
  | cons a t ih =>
    have h1 : pat.isPrefixOf (a :: t) = false := by
      cases hpre : pat.isPrefixOf (a :: t) with
      | false => rfl
      | true => exact absurd (mem_of_isPrefixOf hpre hc) hs
    have h2 : containsRun pat t = false := ih (fun hmem => hs (List.mem_cons_of_mem _ hmem))
    simp [containsRun, h1, h2]

theorem isPrefixOf_append_self (p r : List Char) : p.isPrefixOf (p ++ r) = true := by
  induction p with
  | nil => simp [List.isPrefixOf]
  | cons a q ih => simp [List.isPrefixOf, ih]

theorem containsRun_of_isPrefixOf {pat s : List Char}
    (h : pat.isPrefixOf s = true) : containsRun pat s = true := by
  cases s with
  | nil =>
    cases pat with
    | nil => simp [containsRun, List.isEmpty]
    | cons a p => simp [List.isPrefixOf] at h
  | cons a t => simp [containsRun, h]

theorem digitChar_isDigit {m : Nat} (h : m < 10) : (Nat.digitChar m).isDigit = true := by
  interval_cases m <;> decide

theorem toDigitsCore_digits :
    ∀ (fuel n : Nat) (acc : List Char), (∀ c ∈ acc, c.isDigit = true) →
      ∀ c ∈ Nat.toDigitsCore 10 fuel n acc, c.isDigit = true := by
  intro fuel
  induction fuel with
  | zero =>
    intro n acc hacc c hc
    rw [Nat.toDigitsCore] at hc
    exact hacc c hc
  | succ f ih =>
    intro n acc hacc c hc
    rw [Nat.toDigitsCore] at hc
    have hd : (Nat.digitChar (n % 10)).isDigit = true :=
      digitChar_isDigit (Nat.mod_lt _ (by decide))
    have hacc2 : ∀ d ∈ Nat.digitChar (n % 10) :: acc, d.isDigit = true := by
      intro d hdm
      rcases List.mem_cons.mp hdm with rfl | hdm
      · exact hd
      · exact hacc d hdm
    by_cases hz : n / 10 = 0
    · simp only [hz, if_pos rfl] at hc
      exact hacc2 c hc
    · simp only [if_neg hz] at hc
      exact ih (n / 10) _ hacc2 c hc

theorem repr_chars_digits (n : Nat) : ∀ c ∈ (Nat.repr n).data, c.isDigit = true := by
  intro c hc
  have hdata : (Nat.repr n).data = Nat.toDigitsCore 10 (n + 1) n [] := rfl
  rw [hdata] at hc
  exact toDigitsCore_digits (n + 1) n [] (by simp) c hc

theorem y_not_mem_repr (n : Nat) : 'y' ∉ (Nat.repr n).data := by
  intro h
  have := repr_chars_digits n 'y' h
  simp [Char.isDigit] at this


theorem scanStep_isProxy {r : ScanResult} {p : MltProperty}
    (hp : p.1 ≠ kIsProxyProperty) : (scanStep r p).isProxy = r.isProxy := by
  unfold scanStep
  rw [if_neg hp]
  split_ifs <;> rfl

theorem foldl_scanStep_isProxy :
    ∀ (l : List MltProperty) (r : ScanResult), (∀ p ∈ l, p.1 ≠ kIsProxyProperty) →
      (l.foldl scanStep r).isProxy = r.isProxy := by
  intro l
  induction l with
  | nil => intro r _; rfl
  | cons p t ih =>
    intro r h
    rw [List.foldl_cons, ih _ (fun q hq => h q (List.mem_cons_of_mem _ hq)),
      scanStep_isProxy (h p (List.mem_cons_self _ _))]

theorem processProperties_no_marker (root : String) {buf : List MltProperty}
    (h : ∀ p ∈ buf, p.1 ≠ kIsProxyProperty) : processProperties root buf = buf := by
  have h1 : (scanProperties buf).isProxy = false :=
    foldl_scanStep_isProxy buf ⟨false, "", "", "1"⟩ h
  simp [processProperties, h1]

theorem scanStep_newResource {r : ScanResult} {p : MltProperty} {o : String}
    (hr : r.newResource = o) (ho : o ≠ "")
    (hp : p.1 ≠ kOriginalResourceProperty) : (scanStep r p).newResource = o := by
  unfold scanStep
  by_cases h1 : p.1 = kIsProxyProperty
  · rw [if_pos h1]; exact hr
  · rw [if_neg h1, if_neg hp]
    by_cases h3 : r.newResource = "" ∧ p.1 = "resource"
    · exact absurd (hr ▸ h3.1) ho
    · rw [if_neg h3]
      by_cases h4 : p.1 = "mlt_service"
      · rw [if_pos h4]; exact hr
      · rw [if_neg h4]
        by_cases h5 : p.1 = "warp_speed"
        · rw [if_pos h5]; exact hr
        · rw [if_neg h5]; exact hr

theorem foldl_scanStep_newResource :
    ∀ (l : List MltProperty) (r : ScanResult) (o : String), r.newResource = o → o ≠ "" →
      (∀ p ∈ l, p.1 ≠ kOriginalResourceProperty) → (l.foldl scanStep r).newResource = o := by
  intro l
  induction l with
  | nil => intro r o hr _ _; exact hr
  | cons p t ih =>
    intro r o hr ho h
    rw [List.foldl_cons]
    exact ih _ o (scanStep_newResource hr ho (h p (List.mem_cons_self _ _))) ho
      (fun q hq => h q (List.mem_cons_of_mem _ hq))

theorem scanProperties_newResource_of_split (l1 l2 : List MltProperty) (o : String)
    (ho : o ≠ "") (hl2 : ∀ p ∈ l2, p.1 ≠ kOriginalResourceProperty) :
    (scanProperties (l1 ++ (kOriginalResourceProperty, o) :: l2)).newResource = o := by
  unfold scanProperties
  rw [List.foldl_append, List.foldl_cons]
  have hstep : scanStep (l1.foldl scanStep ⟨false, "", "", "1"⟩) (kOriginalResourceProperty, o)
      = { l1.foldl scanStep ⟨false, "", "", "1"⟩ with newResource := o } := by
    unfold scanStep
    rw [if_neg (show ¬kOriginalResourceProperty = kIsProxyProperty by decide), if_pos rfl]
  rw [hstep]
  exact foldl_scanStep_newResource l2 _ o rfl ho hl2

theorem rewriteProps_cons (root svc spd : String) (p : MltProperty)
    (t : List MltProperty) (nr : String) :
    rewriteProps root svc spd (p :: t) nr =
      if p.1 = "resource" then
        (p.1, if svc = "timewarp" then spd ++ ":" ++ relativize root nr
              else relativize root nr)
          :: rewriteProps root svc spd t (relativize root nr)
      else if p.1 = "warp_resource" then
        (p.1, nr) :: rewriteProps root svc spd t nr
      else if p.1 ≠ kIsProxyProperty ∧ p.1 ≠ kOriginalResourceProperty then
        p :: rewriteProps root svc spd t nr
      else rewriteProps root svc spd t nr := rfl

theorem rewriteProps_cons_res (root svc spd : String) {p : MltProperty}
    (t : List MltProperty) (nr : String) (h1 : p.1 = "resource") :
    rewriteProps root svc spd (p :: t) nr =
      (p.1, if svc = "timewarp" then spd ++ ":" ++ relativize root nr
            else relativize root nr)
        :: rewriteProps root svc spd t (relativize root nr) := by
  rw [rewriteProps_cons, if_pos h1]

theorem rewriteProps_cons_warp (root svc spd : String) {p : MltProperty}
    (t : List MltProperty) (nr : String) (h1 : p.1 ≠ "resource")
    (h2 : p.1 = "warp_resource") :
    rewriteProps root svc spd (p :: t) nr =
      (p.1, nr) :: rewriteProps root svc spd t nr := by
  rw [rewriteProps_cons, if_neg h1, if_pos h2]

theorem rewriteProps_cons_keep (root svc spd : String) {p : MltProperty}
    (t : List MltProperty) (nr : String) (h1 : p.1 ≠ "resource")
    (h2 : p.1 ≠ "warp_resource")
    (h3 : p.1 ≠ kIsProxyProperty ∧ p.1 ≠ kOriginalResourceProperty) :
    rewriteProps root svc spd (p :: t) nr = p :: rewriteProps root svc spd t nr := by
  rw [rewriteProps_cons, if_neg h1, if_neg h2, if_pos h3]

theorem rewriteProps_cons_drop (root svc spd : String) {p : MltProperty}
    (t : List MltProperty) (nr : String) (h1 : p.1 ≠ "resource")
    (h2 : p.1 ≠ "warp_resource")
    (h3 : ¬(p.1 ≠ kIsProxyProperty ∧ p.1 ≠ kOriginalResourceProperty)) :
    rewriteProps root svc spd (p :: t) nr = rewriteProps root svc spd t nr := by
  rw [rewriteProps_cons, if_neg h1, if_neg h2, if_neg h3]

theorem rewriteProps_no_special (root svc spd : String) :
    ∀ (props : List MltProperty) (nr : String),
      ∀ q ∈ rewriteProps root svc spd props nr,
        q.1 ≠ kIsProxyProperty ∧ q.1 ≠ kOriginalResourceProperty := by
  intro props
  induction props with
  | nil => intro nr q hq; simp [rewriteProps] at hq
  | cons p t ih =>
    intro nr q hq
    by_cases h1 : p.1 = "resource"
    · rw [rewriteProps_cons_res root svc spd t nr h1] at hq
      rcases List.mem_cons.mp hq with rfl | hq
      · rw [h1]; exact ⟨by decide, by decide⟩
      · exact ih _ q hq
    · by_cases h2 : p.1 = "warp_resource"
      · rw [rewriteProps_cons_warp root svc spd t nr h1 h2] at hq
        rcases List.mem_cons.mp hq with rfl | hq
        · rw [h2]; exact ⟨by decide, by decide⟩
        · exact ih _ q hq
      · by_cases h3 : p.1 ≠ kIsProxyProperty ∧ p.1 ≠ kOriginalResourceProperty
        · rw [rewriteProps_cons_keep root svc spd t nr h1 h2 h3] at hq
          rcases List.mem_cons.mp hq with rfl | hq
          · exact h3
          · exact ih _ q hq
        · rw [rewriteProps_cons_drop root svc spd t nr h1 h2 h3] at hq
          exact ih _ q hq

theorem rewriteProps_find_resource (root svc spd : String) :
    ∀ (props : List MltProperty) (nr : String),
      (rewriteProps root svc spd props nr).find? (fun q => q.1 == "resource") =
        if props.any (fun p => p.1 == "resource") then
          some ("resource",
            if svc = "timewarp" then spd ++ ":" ++ relativize root nr
            else relativize root nr)
        else none := by
  intro props
  induction props with
  | nil => intro nr; simp [rewriteProps]
  | cons p t ih =>
    intro nr
    by_cases h1 : p.1 = "resource"
    · have hpt : ((p :: t).any fun q => q.1 == "resource") = true := by
        rw [List.any_cons]
        simp [h1]
      rw [rewriteProps_cons_res root svc spd t nr h1,
        List.find?_cons_of_pos _ (by simp [h1]), if_pos hpt, h1]
    · have hb : (p.1 == "resource") = false := by simp [h1]
      have hpt : ((p :: t).any fun q => q.1 == "resource")
          = (t.any fun q => q.1 == "resource") := by
        rw [List.any_cons, hb, Bool.false_or]
      by_cases h2 : p.1 = "warp_resource"
      · rw [rewriteProps_cons_warp root svc spd t nr h1 h2,
          List.find?_cons_of_neg _ (by simp [h1]), ih, hpt]
      · by_cases h3 : p.1 ≠ kIsProxyProperty ∧ p.1 ≠ kOriginalResourceProperty
        · rw [rewriteProps_cons_keep root svc spd t nr h1 h2 h3,
            List.find?_cons_of_neg _ (by simp [h1]), ih, hpt]
        · rw [rewriteProps_cons_drop root svc spd t nr h1 h2 h3, ih, hpt]

/-- The value the mutable newResource variable of processProperties holds
after the second loop has traversed a list of properties. -/
def threadResource (root : String) (nr : String) (props : List MltProperty) : String :=
  props.foldl (fun a p => if p.1 = "resource" then relativize root a else a) nr

theorem threadResource_cons (root nr : String) (p : MltProperty) (t : List MltProperty) :
    threadResource root nr (p :: t) =
      threadResource root (if p.1 = "resource" then relativize root nr else nr) t := rfl

theorem threadResource_no_resource (root : String) :
    ∀ (props : List MltProperty) (nr : String), (∀ p ∈ props, p.1 ≠ "resource") →
      threadResource root nr props = nr := by
  intro props
  induction props with
  | nil => intro nr _; rfl
  | cons p t ih =>
    intro nr h
    rw [threadResource_cons, if_neg (h p (List.mem_cons_self _ _))]
    exact ih nr (fun q hq => h q (List.mem_cons_of_mem _ hq))

theorem rewriteProps_append (root svc spd : String) :
    ∀ (xs ys : List MltProperty) (nr : String),
      rewriteProps root svc spd (xs ++ ys) nr =
        rewriteProps root svc spd xs nr
          ++ rewriteProps root svc spd ys (threadResource root nr xs) := by
  intro xs
  induction xs with
  | nil => intro ys nr; rfl
  | cons p t ih =>
    intro ys nr
    rw [List.cons_append]
    by_cases h1 : p.1 = "resource"
    · rw [rewriteProps_cons_res root svc spd (t ++ ys) nr h1,
        rewriteProps_cons_res root svc spd t nr h1, ih, threadResource_cons, if_pos h1,
        List.cons_append]
    · by_cases h2 : p.1 = "warp_resource"
      · rw [rewriteProps_cons_warp root svc spd (t ++ ys) nr h1 h2,
          rewriteProps_cons_warp root svc spd t nr h1 h2, ih, threadResource_cons, if_neg h1,
          List.cons_append]
      · by_cases h3 : p.1 ≠ kIsProxyProperty ∧ p.1 ≠ kOriginalResourceProperty
        · rw [rewriteProps_cons_keep root svc spd (t ++ ys) nr h1 h2 h3,
            rewriteProps_cons_keep root svc spd t nr h1 h2 h3, ih, threadResource_cons,
            if_neg h1, List.cons_append]
        · rw [rewriteProps_cons_drop root svc spd (t ++ ys) nr h1 h2 h3,
            rewriteProps_cons_drop root svc spd t nr h1 h2 h3, ih, threadResource_cons,
            if_neg h1]

/-- What the second loop of processProperties produces on a segment that
contains no resource property: warp_resource is rewritten to the value
newResource holds on entry, the two special keys are dropped, everything
else passes through. -/
def rewriteSegment (nr : String) (seg : List MltProperty) : List MltProperty :=
  seg.filterMap fun p =>
    if p.1 = "warp_resource" then some (p.1, nr)
    else if p.1 ≠ kIsProxyProperty ∧ p.1 ≠ kOriginalResourceProperty then some p
    else none

theorem rewriteSegment_cons (nr : String) (p : MltProperty) (t : List MltProperty) :
    rewriteSegment nr (p :: t) =
      if p.1 = "warp_resource" then (p.1, nr) :: rewriteSegment nr t
      else if p.1 ≠ kIsProxyProperty ∧ p.1 ≠ kOriginalResourceProperty then
        p :: rewriteSegment nr t
      else rewriteSegment nr t := by
  unfold rewriteSegment
  rw [List.filterMap_cons]
  split_ifs <;> rfl

theorem rewriteProps_segment (root svc spd : String) :
    ∀ (seg : List MltProperty) (nr : String), (∀ p ∈ seg, p.1 ≠ "resource") →
      rewriteProps root svc spd seg nr = rewriteSegment nr seg := by
  intro seg
  induction seg with
  | nil => intro nr _; rfl
  | cons p t ih =>
    intro nr h
    have hres : p.1 ≠ "resource" := h p (List.mem_cons_self _ _)
    have hrest : ∀ q ∈ t, q.1 ≠ "resource" := fun q hq => h q (List.mem_cons_of_mem _ hq)
    rw [rewriteSegment_cons]
    by_cases h2 : p.1 = "warp_resource"
    · rw [rewriteProps_cons_warp root svc spd t nr hres h2, if_pos h2, ih nr hrest]
    · rw [if_neg h2]
      by_cases h3 : p.1 ≠ kIsProxyProperty ∧ p.1 ≠ kOriginalResourceProperty
      · rw [rewriteProps_cons_keep root svc spd t nr hres h2 h3, if_pos h3, ih nr hrest]
      · rw [rewriteProps_cons_drop root svc spd t nr hres h2 h3, if_neg h3, ih nr hrest]

theorem filterFold_clean (root : String) :
    ∀ (events : List XmlEvent) (flag : Bool) (buf : List MltProperty)
      (out : List XmlWrite),
      cleanEvents flag buf events = true →
      (∀ p ∈ buf, p.1 ≠ kIsProxyProperty) →
      (flag = false → buf = []) →
      (List.foldl (filterStep root) ⟨flag, buf, out⟩ events).output =
        out ++ propertyWrites buf ++ passthroughWrites events := by
  intro events
  induction events with
  | nil =>
    intro flag buf out hclean _ _
    have hbuf : buf = [] := by
      simpa [cleanEvents, List.isEmpty_iff] using hclean
    simp [hbuf, passthroughWrites, propertyWrites]
  | cons e rest ih =>
    intro flag buf out hclean hmark hflag
    cases e with
    | characters s =>
      rw [cleanEvents] at hclean
      simp only [Bool.and_eq_true, Bool.not_eq_true'] at hclean
      obtain ⟨hfl, hcl⟩ := hclean
      have hbuf : buf = [] := hflag hfl
      subst hfl hbuf
      rw [List.foldl_cons]
      have hstep : filterStep root ⟨false, [], out⟩ (XmlEvent.characters s)
          = ⟨false, [], out ++ [XmlWrite.characters s]⟩ := by
        simp [filterStep]
      rw [hstep, ih false [] _ hcl (by simp) (fun _ => rfl)]
      simp [passthroughWrites, propertyWrites]
    | comment s =>
      rw [cleanEvents] at hclean
      simp only [Bool.and_eq_true, List.isEmpty_iff] at hclean
      obtain ⟨hbuf, hcl⟩ := hclean
      subst hbuf
      rw [List.foldl_cons]
      have hstep : filterStep root ⟨flag, [], out⟩ (XmlEvent.comment s)
          = ⟨flag, [], out ++ [XmlWrite.comment s]⟩ := by
        simp [filterStep]
      rw [hstep, ih flag [] _ hcl (by simp) (fun _ => rfl)]
      simp [passthroughWrites, propertyWrites]
    | dtd s =>
      rw [cleanEvents] at hclean
      simp only [Bool.and_eq_true, List.isEmpty_iff] at hclean
      obtain ⟨hbuf, hcl⟩ := hclean
      subst hbuf
      rw [List.foldl_cons]
      have hstep : filterStep root ⟨flag, [], out⟩ (XmlEvent.dtd s)
          = ⟨flag, [], out ++ [XmlWrite.dtd s]⟩ := by
        simp [filterStep]
      rw [hstep, ih flag [] _ hcl (by simp) (fun _ => rfl)]
      simp [passthroughWrites, propertyWrites]
    | entityRef n =>
      rw [cleanEvents] at hclean
      simp only [Bool.and_eq_true, List.isEmpty_iff] at hclean
      obtain ⟨hbuf, hcl⟩ := hclean
      subst hbuf
      rw [List.foldl_cons]
      have hstep : filterStep root ⟨flag, [], out⟩ (XmlEvent.entityRef n)
          = ⟨flag, [], out ++ [XmlWrite.entityRef n]⟩ := by
        simp [filterStep]
      rw [hstep, ih flag [] _ hcl (by simp) (fun _ => rfl)]
      simp [passthroughWrites, propertyWrites]
    | procInst t d =>
      rw [cleanEvents] at hclean
      simp only [Bool.and_eq_true, List.isEmpty_iff] at hclean
      obtain ⟨hbuf, hcl⟩ := hclean
      subst hbuf
      rw [List.foldl_cons]
      have hstep : filterStep root ⟨flag, [], out⟩ (XmlEvent.procInst t d)
          = ⟨flag, [], out ++ [XmlWrite.procInst t d]⟩ := by
        simp [filterStep]
      rw [hstep, ih flag [] _ hcl (by simp) (fun _ => rfl)]
      simp [passthroughWrites, propertyWrites]
    | startDocument v sa =>
      rw [cleanEvents] at hclean
      simp only [Bool.and_eq_true, List.isEmpty_iff] at hclean
      obtain ⟨hbuf, hcl⟩ := hclean
      subst hbuf
      rw [List.foldl_cons]
      have hstep : filterStep root ⟨flag, [], out⟩ (XmlEvent.startDocument v sa)
          = ⟨flag, [], out ++ [XmlWrite.startDocument v sa]⟩ := by
        simp [filterStep]
      rw [hstep, ih flag [] _ hcl (by simp) (fun _ => rfl)]
      simp [passthroughWrites, propertyWrites]
    | endDocument =>
      rw [cleanEvents] at hclean
      simp only [Bool.and_eq_true, List.isEmpty_iff] at hclean
      obtain ⟨hbuf, hcl⟩ := hclean
      subst hbuf
      rw [List.foldl_cons]
      have hstep : filterStep root ⟨flag, [], out⟩ XmlEvent.endDocument
          = ⟨flag, [], out ++ [XmlWrite.endDocument]⟩ := by
        simp [filterStep]
      rw [hstep, ih flag [] _ hcl (by simp) (fun _ => rfl)]
      simp [passthroughWrites, propertyWrites]
    | property n v =>
      rw [cleanEvents] at hclean
      simp only [Bool.and_eq_true, bne_iff_ne, ne_eq] at hclean
      obtain ⟨hn, hcl⟩ := hclean
      rw [List.foldl_cons]
      have hstep : filterStep root ⟨flag, buf, out⟩ (XmlEvent.property n v)
          = ⟨true, buf ++ [(n, v)], out⟩ := by
        simp [filterStep]
      have hmark2 : ∀ p ∈ buf ++ [(n, v)], p.1 ≠ kIsProxyProperty := by
        intro p hp
        rcases List.mem_append.mp hp with hp | hp
        · exact hmark p hp
        · rcases List.mem_singleton.mp hp with rfl
          exact hn
      rw [hstep, ih true _ _ hcl hmark2 (by simp)]
      simp [passthroughWrites, propertyWrites, List.append_assoc]
    | startElement ns n attrs =>
      rw [cleanEvents] at hclean
      rw [List.foldl_cons]
      have hstep : filterStep root ⟨flag, buf, out⟩ (XmlEvent.startElement ns n attrs)
          = ⟨false, [],
              out ++ propertyWrites buf ++ [XmlWrite.startElement ns n attrs]⟩ := by
        simp [filterStep, processProperties_no_marker root hmark, List.append_assoc]
      rw [hstep, ih false [] _ hclean (by simp) (fun _ => rfl)]
      simp [passthroughWrites, propertyWrites, List.append_assoc]
    | endElement n =>
      rw [cleanEvents] at hclean
      simp only [Bool.and_eq_true, bne_iff_ne, ne_eq] at hclean
      obtain ⟨hn, hcl⟩ := hclean
      rw [List.foldl_cons]
      have hstep : filterStep root ⟨flag, buf, out⟩ (XmlEvent.endElement n)
          = ⟨flag, [],
              out ++ propertyWrites buf ++ [XmlWrite.endElement n]⟩ := by
        simp [filterStep, if_neg hn, processProperties_no_marker root hmark,
          List.append_assoc]
      rw [hstep, ih flag [] _ hcl (by simp) (fun _ => rfl)]
      simp [passthroughWrites, propertyWrites, List.append_assoc]

theorem processProperties_marked (root : String) {props : List MltProperty}
    (h : (scanProperties props).isProxy = true) :
    processProperties root props =
      rewriteProps root (scanProperties props).service (scanProperties props).speed
        props (scanProperties props).newResource := by
  simp [processProperties, h]

/-- C1: in a proxy-marked property scope whose original resource is
nonempty and whose service is not the time remap, the rewritten scope
contains neither the proxy marker key nor the original-resource stash
key, and its resource property carries the original path taken from the
originalResource property, relativized against the caller-supplied root
(relativize strips the root prefix when the path starts with it). -/
theorem spec_C1 (root o : String) (l1 l2 : List MltProperty)
    (ho : o ≠ "")
    (hl2 : ∀ p ∈ l2, p.1 ≠ kOriginalResourceProperty)
    (hproxy : (scanProperties (l1 ++ (kOriginalResourceProperty, o) :: l2)).isProxy = true)
    (hserv : (scanProperties (l1 ++ (kOriginalResourceProperty, o) :: l2)).service ≠ "timewarp")
    (hres : (l1 ++ (kOriginalResourceProperty, o) :: l2).any (fun p => p.1 == "resource") = true) :
    (∀ q ∈ processProperties root (l1 ++ (kOriginalResourceProperty, o) :: l2),
        q.1 ≠ kIsProxyProperty ∧ q.1 ≠ kOriginalResourceProperty) ∧
    (processProperties root (l1 ++ (kOriginalResourceProperty, o) :: l2)).find?
        (fun q => q.1 == "resource") = some ("resource", relativize root o) := by
  have hnr : (scanProperties (l1 ++ (kOriginalResourceProperty, o) :: l2)).newResource = o :=
    scanProperties_newResource_of_split l1 l2 o ho hl2
  constructor
  · intro q hq
    rw [processProperties_marked root hproxy] at hq
    exact rewriteProps_no_special root _ _ _ _ q hq
  · rw [processProperties_marked root hproxy, rewriteProps_find_resource, if_pos hres,
      if_neg hserv, hnr]

theorem spec_C1_witness :
    (processProperties "/a/" [(kIsProxyProperty, "1"), (kOriginalResourceProperty, "/a/b/c.mov"),
        ("resource", "/p/h.mp4"), ("mlt_service", "avformat")]).find?
      (fun q => q.1 == "resource") = some ("resource", "b/c.mov") := by
  have h := spec_C1 "/a/" "/a/b/c.mov" [(kIsProxyProperty, "1")]
      [("resource", "/p/h.mp4"), ("mlt_service", "avformat")]
      (by decide) (by decide) (by decide) (by decide) (by decide)
  exact h.2.trans (by decide)

/-- The buffered scope used to exhibit the order dependence of the
warp_resource rewrite: the warp_resource property precedes the resource
property. -/
def exC2 : List MltProperty :=
  [(kIsProxyProperty, "1"), ("mlt_service", "timewarp"), ("warp_speed", "2"),
   (kOriginalResourceProperty, "/a/b.mov"), ("warp_resource", "w"), ("resource", "r")]

/-- C2 counterexample: in a proxy-marked timewarp scope with root "/a"
and originalResource "/a/b.mov", a warp_resource property that precedes
the resource property in the buffer is rewritten to the UNrelativized
original path "/a/b.mov", not to the relativized "b.mov" the claim
demands regardless of buffer order. -/
theorem spec_C2_counterexample :
    (scanProperties exC2).isProxy = true ∧
    (scanProperties exC2).service = "timewarp" ∧
    relativize "/a" "/a/b.mov" = "b.mov" ∧
    (processProperties "/a" exC2).find? (fun q => q.1 == "warp_resource")
      = some ("warp_resource", "/a/b.mov") ∧
    ("/a/b.mov" : String) ≠ "b.mov" := by decide

/-- C2 amended: in a proxy-marked timewarp scope, the resource property
is rewritten to "speed:path" using the buffered warp_speed (default "1")
and the relativized original path, independent of where warp_speed sits
in the buffer; a warp_resource property is rewritten to the original
path as relativized so far: properties before the resource property get
the unrelativized path, properties after it get the relativized path. -/
theorem spec_C2_amended (root rv : String) (pre post : List MltProperty)
    (hpre : ∀ p ∈ pre, p.1 ≠ "resource") (hpost : ∀ p ∈ post, p.1 ≠ "resource")
    (hproxy : (scanProperties (pre ++ ("resource", rv) :: post)).isProxy = true)
    (hserv : (scanProperties (pre ++ ("resource", rv) :: post)).service = "timewarp") :
    processProperties root (pre ++ ("resource", rv) :: post) =
      rewriteSegment (scanProperties (pre ++ ("resource", rv) :: post)).newResource pre
        ++ ("resource",
             (scanProperties (pre ++ ("resource", rv) :: post)).speed ++ ":"
               ++ relativize root (scanProperties (pre ++ ("resource", rv) :: post)).newResource)
          :: rewriteSegment
               (relativize root (scanProperties (pre ++ ("resource", rv) :: post)).newResource)
               post := by
  rw [processProperties_marked root hproxy, rewriteProps_append,
    threadResource_no_resource root pre _ hpre,
    rewriteProps_segment root _ _ pre _ hpre,
    rewriteProps_cons_res _ _ _ post _ rfl, if_pos hserv,
    rewriteProps_segment root _ _ post _ hpost]

theorem spec_C2_witness :
    processProperties "" [(kIsProxyProperty, "1"), ("mlt_service", "timewarp"),
        ("warp_speed", "2"), (kOriginalResourceProperty, "/x/y.mov"),
        ("resource", "proxy.mp4"), ("warp_resource", "old")] =
      [("mlt_service", "timewarp"), ("warp_speed", "2"),
       ("resource", "2:/x/y.mov"), ("warp_resource", "/x/y.mov")] := by
  have h := spec_C2_amended "" "proxy.mp4"
      [(kIsProxyProperty, "1"), ("mlt_service", "timewarp"), ("warp_speed", "2"),
       (kOriginalResourceProperty, "/x/y.mov")]
      [("warp_resource", "old")] (by decide) (by decide) (by decide) (by decide)
  exact h.trans (by decide)

/-- An event stream with no proxy marker in which character data follows
an end element whose scope ended with a property element. -/
def exC3 : List XmlEvent :=
  [XmlEvent.startDocument "1.0" false,
   XmlEvent.startElement "" "mlt" [],
   XmlEvent.startElement "" "chain" [],
   XmlEvent.property "resource" "a.mov",
   XmlEvent.endElement "chain",
   XmlEvent.characters "hello",
   XmlEvent.endElement "mlt",
   XmlEvent.endDocument]

/-- C3 counterexample: a document with no proxy marker whose character
data "hello" follows the end element of a scope that ended with a
property element; the isPropertyElement flag is still set (no event
clears it on end elements), so the characters are dropped and the output
is not the identity passthrough. -/
theorem spec_C3_counterexample :
    (exC3.all fun e => match e with
      | XmlEvent.property n _ => n != kIsProxyProperty
      | _ => true) = true ∧
    filterEvents "" exC3 ≠ passthroughWrites exC3 := by decide

/-- C3 amended: the rewrite is the identity passthrough for every event
stream that carries no proxy marker property, has no character data while
the property flag is set (the flag is set by a property element and is
cleared only by a non-property start element, not by end elements), has
no unbuffered construct while properties are buffered, has no end
element literally named property, and ends with its buffer flushed. -/
theorem spec_C3_amended (root : String) (events : List XmlEvent)
    (h : cleanEvents false [] events = true) :
    filterEvents root events = passthroughWrites events := by
  have h2 := filterFold_clean root events false [] [] h (by simp) (fun _ => rfl)
  simpa [filterEvents, propertyWrites] using h2

/-- A well-formed non-proxy document stream: properties buffered per
scope, flushed at each element boundary, no stray characters. -/
def exC3clean : List XmlEvent :=
  [XmlEvent.startDocument "1.0" false,
   XmlEvent.startElement "" "mlt" [("title", "x")],
   XmlEvent.startElement "" "producer" [("id", "p0")],
   XmlEvent.property "resource" "a.mov",
   XmlEvent.property "mlt_service" "avformat",
   XmlEvent.endElement "producer",
   XmlEvent.endElement "mlt",
   XmlEvent.endDocument]

theorem spec_C3_witness :
    filterEvents "/a" exC3clean = passthroughWrites exC3clean :=
  spec_C3_amended "/a" exC3clean (by decide)

/-- C4: in the traces of generateVideoProxy and generateImageProxy every
job submission is strictly preceded by the touch of the pending marker
file, and the very first action is that touch at the pending path. -/
theorem spec_C4 (dirPath : String) (p : Producer) (fullRange : Bool) (m : ScanMode)
    (aspectX aspectY : Int) (useHardware : Bool) (hwCodecs : List String) (res : Nat) :
    (∀ i path args,
        (generateVideoProxyTrace dirPath p fullRange m aspectX aspectY useHardware
            hwCodecs res).get? i = some (ProxyAction.submitJob path args) →
        ∃ j q, j < i ∧
          (generateVideoProxyTrace dirPath p fullRange m aspectX aspectY useHardware
              hwCodecs res).get? j = some (ProxyAction.touchFile q)) ∧
    (∀ i path args,
        (generateImageProxyTrace dirPath p res).get? i
          = some (ProxyAction.submitJob path args) →
        ∃ j q, j < i ∧
          (generateImageProxyTrace dirPath p res).get? j
            = some (ProxyAction.touchFile q)) ∧
    (generateVideoProxyTrace dirPath p fullRange m aspectX aspectY useHardware hwCodecs
        res).get? 0
      = some (ProxyAction.touchFile (dirPath ++ "/" ++ p.hash ++ kProxyPendingVideoExtension)) ∧
    (generateImageProxyTrace dirPath p res).get? 0
      = some (ProxyAction.touchFile (dirPath ++ "/" ++ p.hash ++ kProxyPendingImageExtension)) := by
  refine ⟨?_, ?_, rfl, rfl⟩
  · intro i path args h
    rcases i with _ | _ | n
    · simp [generateVideoProxyTrace] at h
    · exact ⟨0, dirPath ++ "/" ++ p.hash ++ kProxyPendingVideoExtension, Nat.zero_lt_one, rfl⟩
    · simp [generateVideoProxyTrace, List.get?] at h
  · intro i path args h
    rcases i with _ | _ | n
    · simp [generateImageProxyTrace] at h
    · exact ⟨0, dirPath ++ "/" ++ p.hash ++ kProxyPendingImageExtension, Nat.zero_lt_one, rfl⟩
    · simp [generateImageProxyTrace, List.get?] at h

theorem spec_C4_witness :
    ∃ j q, j < 1 ∧
      (generateVideoProxyTrace "/cache" ⟨true, "avformat", "/m/c.mov", "", false, false,
          none, false, 1920, 1080, 709, 0, 1, "H", false⟩ false ScanMode.Automatic 0 0
          false [] 540).get? j = some (ProxyAction.touchFile q) :=
  (spec_C4 "/cache" ⟨true, "avformat", "/m/c.mov", "", false, false, none, false, 1920,
      1080, 709, 0, 1, "H", false⟩ false ScanMode.Automatic 0 0 false [] 540).1 1 _ _ rfl

/-- C5: the four suffix constants are fixed as the spec states, but the
accessor for the pending image extension returns the ready image suffix
".jpg" instead of the pending suffix ".pending.jpg". -/
theorem spec_C5_divergence :
    videoFilenameExtension = ".mp4" ∧
    pendingVideoExtension = ".pending.mp4" ∧
    imageFilenameExtension = ".jpg" ∧
    kProxyPendingImageExtension = ".pending.jpg" ∧
    pendingImageExtension = ".jpg" ∧
    pendingImageExtension ≠ kProxyPendingImageExtension := by decide

theorem containsRun_cons (pat : List Char) (a : Char) (t : List Char) :
    containsRun pat (a :: t) = (pat.isPrefixOf (a :: t) || containsRun pat t) := rfl

theorem isPrefixOf_cons_ne {a b : Char} (l m : List Char) (h : (a == b) = false) :
    (a :: l).isPrefixOf (b :: m) = false := by
  simp [List.isPrefixOf, h]

theorem isPrefixOf_append_of_isPrefixOf :
    ∀ {p l : List Char}, p.isPrefixOf l = true → ∀ (m : List Char),
      p.isPrefixOf (l ++ m) = true := by
  intro p
  induction p with
  | nil => intro l _ m; simp [List.isPrefixOf]
  | cons a q ih =>
    intro l h m
    cases l with
    | nil => simp [List.isPrefixOf] at h
    | cons b t =>
      simp only [List.isPrefixOf, Bool.and_eq_true] at h
      simp only [List.cons_append, List.isPrefixOf, Bool.and_eq_true]
      exact ⟨h.1, ih h.2 m⟩

theorem vfFilterArg_data (m : ScanMode) (fr uh : Bool) (hc : List String) (res : Nat) :
    (vfFilterArg m fr uh hc res).data =
      (((deinterlaceFilter m).data ++ (scaleFilter res).data) ++ (rangeSuffix fr).data)
        ++ (hwUploadSuffix uh hc).data := by
  unfold vfFilterArg
  rw [data_append, data_append, data_append]

theorem y_not_mem_scaleFilter (res : Nat) : 'y' ∉ (scaleFilter res).data := by
  unfold scaleFilter
  rw [data_append]
  intro hmem
  rcases List.mem_append.mp hmem with hh | hh
  · revert hh; decide
  · exact y_not_mem_repr res hh

theorem y_not_mem_rangeSuffix (fr : Bool) : 'y' ∉ (rangeSuffix fr).data := by
  unfold rangeSuffix
  split_ifs <;> decide

theorem y_not_mem_hwUploadSuffix (uh : Bool) (hc : List String) :
    'y' ∉ (hwUploadSuffix uh hc).data := by
  unfold hwUploadSuffix
  split_ifs <;> decide

/-- C7: the video filter expression contains no forced-parity token in
Automatic mode but does contain the interlaced-frames-only deinterlace
token; the two explicit interlaced modes contain their respective parity
tokens; Progressive mode contains no deinterlace stage at all. -/
theorem spec_C7 (fr uh : Bool) (hc : List String) (res : Nat) :
    strContainsSub (vfFilterArg ScanMode.Automatic fr uh hc res) "parity" = false ∧
    strContainsSub (vfFilterArg ScanMode.Automatic fr uh hc res)
      "yadif=deint=interlaced" = true ∧
    strContainsSub (vfFilterArg ScanMode.InterlacedTopFieldFirst fr uh hc res)
      "yadif=parity=tff" = true ∧
    strContainsSub (vfFilterArg ScanMode.InterlacedBottomFieldFirst fr uh hc res)
      "yadif=parity=bff" = true ∧
    strContainsSub (vfFilterArg ScanMode.Progressive fr uh hc res) "yadif" = false := by
  have hyscale := y_not_mem_scaleFilter res
  have hyrange := y_not_mem_rangeSuffix fr
  have hyhw := y_not_mem_hwUploadSuffix uh hc
  have hdAuto : deinterlaceFilter ScanMode.Automatic = "yadif=deint=interlaced," := by decide
  have hdTff : deinterlaceFilter ScanMode.InterlacedTopFieldFirst = "yadif=parity=tff," := by
    decide
  have hdBff : deinterlaceFilter ScanMode.InterlacedBottomFieldFirst
      = "yadif=parity=bff," := by decide
  have hdProg : deinterlaceFilter ScanMode.Progressive = "" := by decide
  refine ⟨?_, ?_, ?_, ?_, ?_⟩
  · unfold strContainsSub
    rw [vfFilterArg_data, hdAuto,
      show ("yadif=deint=interlaced,".data) = 'y' :: "adif=deint=interlaced,".data from rfl,
      List.cons_append, List.cons_append, List.cons_append, containsRun_cons]
    have hyrest : 'y' ∉ ((("adif=deint=interlaced,".data ++ (scaleFilter res).data)
        ++ (rangeSuffix fr).data) ++ (hwUploadSuffix uh hc).data) := by
      intro hmem
      rcases List.mem_append.mp hmem with hmem | hmem
      · rcases List.mem_append.mp hmem with hmem | hmem
        · rcases List.mem_append.mp hmem with hmem | hmem
          · revert hmem; decide
          · exact hyscale hmem
        · exact hyrange hmem
      · exact hyhw hmem
    have h1 : ("parity".data).isPrefixOf ('y' :: ((("adif=deint=interlaced,".data
        ++ (scaleFilter res).data) ++ (rangeSuffix fr).data)
        ++ (hwUploadSuffix uh hc).data)) = false := by
      rw [show ("parity".data) = 'p' :: "arity".data from rfl]
      exact isPrefixOf_cons_ne _ _ (by decide)
    rw [h1, containsRun_eq_false (show 'y' ∈ "parity".data by decide) hyrest]
    rfl
  · unfold strContainsSub
    rw [vfFilterArg_data, hdAuto]
    apply containsRun_of_isPrefixOf
    have h0 : ("yadif=deint=interlaced".data).isPrefixOf
        ("yadif=deint=interlaced,".data) = true := by decide
    exact isPrefixOf_append_of_isPrefixOf
      (isPrefixOf_append_of_isPrefixOf (isPrefixOf_append_of_isPrefixOf h0 _) _) _
  · unfold strContainsSub
    rw [vfFilterArg_data, hdTff]
    apply containsRun_of_isPrefixOf
    have h0 : ("yadif=parity=tff".data).isPrefixOf ("yadif=parity=tff,".data) = true := by
      decide
    exact isPrefixOf_append_of_isPrefixOf
      (isPrefixOf_append_of_isPrefixOf (isPrefixOf_append_of_isPrefixOf h0 _) _) _
  · unfold strContainsSub
    rw [vfFilterArg_data, hdBff]
    apply containsRun_of_isPrefixOf
    have h0 : ("yadif=parity=bff".data).isPrefixOf ("yadif=parity=bff,".data) = true := by
      decide
    exact isPrefixOf_append_of_isPrefixOf
      (isPrefixOf_append_of_isPrefixOf (isPrefixOf_append_of_isPrefixOf h0 _) _) _
  · unfold strContainsSub
    rw [vfFilterArg_data, hdProg]
    apply containsRun_eq_false (show 'y' ∈ "yadif".data by decide)
    intro hmem
    rcases List.mem_append.mp hmem with hmem | hmem
    · rcases List.mem_append.mp hmem with hmem | hmem
      · rcases List.mem_append.mp hmem with hmem | hmem
        · revert hmem; decide
        · exact hyscale hmem
      · exact hyrange hmem
    · exact hyhw hmem

/-- C6: the colorspace triplet is a fixed lookup on the signaled
colorspace code with the 601/576-line special case, codes 170, 240 and
470 mapped to their fixed triplets, and every other code (including 0,
the value a missing property reads as) mapped to the bt709 default; the
selected triplet appears contiguously inside the full argument list the
video descriptor builder emits. -/
theorem spec_C6 (c h : Int) (res0 fileName : String) (vi ai : Int) (m : ScanMode)
    (fr uh : Bool) (ax ay : Int) (hc : List String) (res : Nat) :
    colorspaceArgs 601 576
        = ["-color_primaries", "bt470bg", "-color_trc", "smpte170m",
           "-colorspace", "bt470bg"] ∧
    (h ≠ 576 → colorspaceArgs 601 h
        = ["-color_primaries", "smpte170m", "-color_trc", "smpte170m",
           "-colorspace", "smpte170m"]) ∧
    colorspaceArgs 170 h
        = ["-color_primaries", "smpte170m", "-color_trc", "smpte170m",
           "-colorspace", "smpte170m"] ∧
    colorspaceArgs 240 h
        = ["-color_primaries", "smpte240m", "-color_trc", "smpte240m",
           "-colorspace", "smpte240m"] ∧
    colorspaceArgs 470 h
        = ["-color_primaries", "bt470bg", "-color_trc", "bt470bg",
           "-colorspace", "bt470bg"] ∧
    (c ≠ 601 → c ≠ 170 → c ≠ 240 → c ≠ 470 →
      colorspaceArgs c h
        = ["-color_primaries", "bt709", "-color_trc", "bt709", "-colorspace", "bt709"]) ∧
    colorspaceArgs 0 h
        = ["-color_primaries", "bt709", "-color_trc", "bt709", "-colorspace", "bt709"] ∧
    (∃ l1 l2, videoProxyArgs res0 fileName vi ai m fr c h ax ay uh hc res
        = l1 ++ colorspaceArgs c h ++ l2) := by
  refine ⟨?_, ?_, ?_, ?_, ?_, ?_, ?_, ?_⟩
  · unfold colorspaceArgs
    rw [if_pos rfl, if_pos rfl]
  · intro hne
    unfold colorspaceArgs
    rw [if_pos rfl, if_neg hne]
  · unfold colorspaceArgs
    rw [if_neg (by decide : ¬(170 : Int) = 601), if_pos rfl]
  · unfold colorspaceArgs
    rw [if_neg (by decide : ¬(240 : Int) = 601), if_neg (by decide : ¬(240 : Int) = 170),
      if_pos rfl]
  · unfold colorspaceArgs
    rw [if_neg (by decide : ¬(470 : Int) = 601), if_neg (by decide : ¬(470 : Int) = 170),
      if_neg (by decide : ¬(470 : Int) = 240), if_pos rfl]
  · intro h601 h170 h240 h470
    unfold colorspaceArgs
    rw [if_neg h601, if_neg h170, if_neg h240, if_neg h470]
  · unfold colorspaceArgs
    rw [if_neg (by decide : ¬(0 : Int) = 601), if_neg (by decide : ¬(0 : Int) = 170),
      if_neg (by decide : ¬(0 : Int) = 240), if_neg (by decide : ¬(0 : Int) = 470)]
  · by_cases hb : (videoProxyBase res0 vi ai m fr c h ax ay uh hc res).contains "-codec:v"
        = true
    · refine ⟨videoProxyPre res0 vi ai m fr uh hc res,
        videoProxyMid ax ay uh hc ++ ["-g", "1", "-bf", "0", "-y", fileName], ?_⟩
      unfold videoProxyArgs
      rw [if_pos hb]
      unfold videoProxyBase
      simp [List.append_assoc]
    · refine ⟨videoProxyPre res0 vi ai m fr uh hc res,
        videoProxyMid ax ay uh hc
          ++ ["-codec:v", "libx264", "-preset", "veryfast", "-crf", "23"]
          ++ ["-g", "1", "-bf", "0", "-y", fileName], ?_⟩
      unfold videoProxyArgs
      rw [if_neg hb]
      unfold videoProxyBase
      simp [List.append_assoc]

theorem spec_C6_witness :
    colorspaceArgs 601 480
        = ["-color_primaries", "smpte170m", "-color_trc", "smpte170m",
           "-colorspace", "smpte170m"] ∧
    colorspaceArgs 999 480
        = ["-color_primaries", "bt709", "-color_trc", "bt709", "-colorspace", "bt709"] := by
  have hh := spec_C6 999 480 "in.mov" "out.mp4" 0 1 ScanMode.Automatic false false 0 0 [] 540
  exact ⟨hh.2.1 (by decide),
    hh.2.2.2.2.2.1 (by decide) (by decide) (by decide) (by decide)⟩

/-- The environment used to exhibit the promotion-path divergence: the
ready proxy file exists only inside the project proxies subfolder. -/
def exEnvC8 : Env :=
  { proxyEnabled := true, previewScale := 0, proxyFolder := "/global",
    projectFolder := "/proj", projectProxiesCd := true,
    projectProxiesHas := fun fn => fn == "HASH.mp4",
    projectDirHas := fun _ => false, globalDirHas := fun _ => false,
    dirPath := "/global", useHardware := false, hwCodecs := [] }

/-- The eligible avformat clip used with exEnvC8. -/
def exProdC8 : Producer :=
  { valid := true, service := "avformat", resourceProp := "/media/orig.mov",
    warpResource := "", isProxy := false, disableProxy := false,
    originalResource := none, isSequence := false, width := 1920, height := 1080,
    colorspace := 709, videoIndex := 0, audioIndex := 1, hash := "HASH",
    fullRange := false }

/-- C8: with a ready proxy present only at project/proxies/HASH.mp4, the
promotion path tags the clip, stashes the original resource and returns
true as the claim states, but rewrites the resource to the global-folder
path /global/HASH.mp4 because line 433 probes the project folder itself
(never moved into the proxies subfolder) instead of project/proxies. -/
theorem spec_C8_divergence :
    fileExists exEnvC8 exProdC8 = true ∧
    (generateIfNotExists exEnvC8 exProdC8 false).2.1 = true ∧
    (generateIfNotExists exEnvC8 exProdC8 false).1.isProxy = true ∧
    (generateIfNotExists exEnvC8 exProdC8 false).1.originalResource
      = some "/media/orig.mov" ∧
    (generateIfNotExists exEnvC8 exProdC8 false).1.resourceProp = "/global/HASH.mp4" ∧
    ("/global/HASH.mp4" : String) ≠ "/proj/proxies/HASH.mp4" := by decide

/-- C9: filterXML returns true exactly when both files opened and the
parse ended without error; on success the caller-visible file name is
replaced by the retained temporary, and on any failure (open failure or
parse error) the result is false, the file name is left unchanged and
the temporary is not retained. -/
theorem spec_C9 (fn root : String) (inp : FilterXMLInput) :
    ((filterXML fn root inp).ok = true ↔
      (inp.openInputOk = true ∧ inp.openTempOk = true ∧ inp.hasError = false)) ∧
    ((filterXML fn root inp).ok = true →
      (filterXML fn root inp).fileNameAfter = inp.tempName ∧
        (filterXML fn root inp).tempRetained = true) ∧
    ((filterXML fn root inp).ok = false →
      (filterXML fn root inp).fileNameAfter = fn ∧
        (filterXML fn root inp).tempRetained = false) := by
  rcases inp with ⟨o1, o2, ev, he, tn⟩
  unfold filterXML
  cases o1 <;> cases o2 <;> cases he <;> simp

/-- A filterXML run whose document parse fails. -/
def exInpC9 : FilterXMLInput :=
  { openInputOk := true, openTempOk := true, events := [], hasError := true,
    tempName := "/tmp/shotcut-ABC123.mlt" }

theorem spec_C9_witness :
    (filterXML "doc.mlt" "" exInpC9).fileNameAfter = "doc.mlt" ∧
    (filterXML "doc.mlt" "" exInpC9).tempRetained = false :=
  (spec_C9 "doc.mlt" "" exInpC9).2.2 (by decide)

/-- C10: for an eligible clip (feature on, valid, not disabled, not
already a proxy) with neither a ready nor a pending proxy file, the
generation path runs only when both media dimensions strictly exceed
qRound(1.3 x resolution): above the threshold the side-effect trace is
exactly a pending-marker touch followed by one job submission, and at or
below the threshold the call changes nothing, performs no side effect
and returns false. -/
theorem spec_C10 (env : Env) (p : Producer) (replace : Bool)
    (h1 : env.proxyEnabled = true) (h2 : p.valid = true) (h3 : p.disableProxy = false)
    (h4 : p.isProxy = false) (h5 : fileExists env p = false)
    (h6 : filePending env p = false)
    (h7 : strStartsWith p.service "avformat" = true ∨ isValidImage p = true) :
    ((p.width > (proxyThreshold env.previewScale : Int)
        ∧ p.height > (proxyThreshold env.previewScale : Int)) →
      ∃ pending args, (generateIfNotExists env p replace).2.2
          = [ProxyAction.touchFile pending, ProxyAction.submitJob pending args]
        ∧ (generateIfNotExists env p replace).2.1 = false) ∧
    (¬(p.width > (proxyThreshold env.previewScale : Int)
        ∧ p.height > (proxyThreshold env.previewScale : Int)) →
      generateIfNotExists env p replace = (p, false, [])) := by
  have hcond : (env.proxyEnabled && p.valid && !p.disableProxy && !p.isProxy) = true := by
    rw [h1, h2, h3, h4]
    rfl
  rcases h7 with h7 | h7
  · constructor
    · intro hwh
      have hgen : generateIfNotExists env p replace
          = (p, false, generateVideoProxyTrace env.dirPath p p.fullRange ScanMode.Automatic
              0 0 env.useHardware env.hwCodecs (resolution env.previewScale)) := by
        unfold generateIfNotExists
        rw [hcond, h5, h6, h7]
        simp [if_pos hwh]
      refine ⟨env.dirPath ++ "/" ++ p.hash ++ kProxyPendingVideoExtension,
        videoProxyArgs (resource p)
          (env.dirPath ++ "/" ++ p.hash ++ kProxyPendingVideoExtension) p.videoIndex
          p.audioIndex ScanMode.Automatic p.fullRange p.colorspace p.height 0 0
          env.useHardware env.hwCodecs (resolution env.previewScale), ?_, ?_⟩
      · rw [hgen]
        rfl
      · rw [hgen]
    · intro hwh
      unfold generateIfNotExists
      rw [hcond, h5, h6, h7]
      simp [if_neg hwh]
  · have hsvc : strStartsWith p.service "avformat" = false := by
      have himg := h7
      unfold isValidImage at himg
      simp only [Bool.and_eq_true, Bool.or_eq_true, beq_iff_eq] at himg
      rcases himg.1 with hserv | hserv <;> rw [hserv] <;> decide
    constructor
    · intro hwh
      have hgen : generateIfNotExists env p replace
          = (p, false, generateImageProxyTrace env.dirPath p (resolution env.previewScale)) := by
        unfold generateIfNotExists
        rw [hcond, h5, h6, hsvc, h7]
        simp [if_pos hwh]
      refine ⟨env.dirPath ++ "/" ++ p.hash ++ kProxyPendingImageExtension,
        imageProxyArgs (resource p)
          (env.dirPath ++ "/" ++ p.hash ++ kProxyPendingImageExtension) p.width p.height
          (resolution env.previewScale), ?_, ?_⟩
      · rw [hgen]
        rfl
      · rw [hgen]
    · intro hwh
      unfold generateIfNotExists
      rw [hcond, h5, h6, hsvc, h7]
      simp [if_neg hwh]

/-- The environment used to exercise the generation path: empty caches,
default preview scale. -/
def exEnvC10 : Env :=
  { proxyEnabled := true, previewScale := 0, proxyFolder := "/global",
    projectFolder := "/proj", projectProxiesCd := false,
    projectProxiesHas := fun _ => false, projectDirHas := fun _ => false,
    globalDirHas := fun _ => false, dirPath := "/cache", useHardware := false,
    hwCodecs := [] }

/-- An eligible 1920x1080 avformat clip with no proxy on disk. -/
def exProdC10 : Producer :=
  { valid := true, service := "avformat", resourceProp := "/media/clip.mov",
    warpResource := "", isProxy := false, disableProxy := false,
    originalResource := none, isSequence := false, width := 1920, height := 1080,
    colorspace := 0, videoIndex := 0, audioIndex := 1, hash := "H", fullRange := false }

theorem spec_C10_witness :
    ∃ pending args, (generateIfNotExists exEnvC10 exProdC10 false).2.2
        = [ProxyAction.touchFile pending, ProxyAction.submitJob pending args]
      ∧ (generateIfNotExists exEnvC10 exProdC10 false).2.1 = false :=
  (spec_C10 exEnvC10 exProdC10 false rfl rfl rfl rfl (by decide) (by decide)
    (Or.inl (by decide))).1 (by decide)
